import Mathlib

/-!
Verification of the Hadryss auto-sizing CNN builder (`Hadryss_new2.py`).

The development shallowly embeds the numeric/configuration content of the
source file:

* `shrink` — the length-shrink simulation `size = floor((size - 2) / factor)`
  folded over the list of pooling factors (the inner `for` loop of
  `determine_block_pooling_sizes_and_dense_size`);
* `planAux` / `determine_block_pooling_sizes_and_dense_size` — the search loop
  (`while True: for index ...`), modelled with explicit fuel; the fuel is shown
  to always suffice, so the `Option` is always `some`;
* `planSpec` — the same search written round-by-round, following the prose of
  the specification, used for the refinement claim;
* `PlanLoop` / `PlanReturns` — the loop as a big-step relation, used to state
  determinism;
* `LightCurveNetworkBlock`, `HadryssNew`, and the end-module descriptors — the
  declarative wiring performed by `HadryssNew.__init__`, `HadryssNew.new`, and
  the three end-module classes, embedded as configuration records.

Machine reals only appear as the dropout rates, embedded as `ℚ`; every
sequence-length computation in the source is exact integer arithmetic
(`math.floor` of a true division by a positive integer, i.e. `Int.fdiv`).
-/

/-- One step of the shrink simulation from
`determine_block_pooling_sizes_and_dense_size`:
`current_size -= 2; current_size /= current_pooling_size;
current_size = math.floor(current_size)`.  For an integer divisor `f ≥ 1`,
`math.floor` of the true division is exactly `Int.fdiv`. -/
def shrinkStep (s f : Int) : Int := (s - 2).fdiv f

/-- The full shrink simulation: starting from the input length, apply
`shrinkStep` for each pooling factor in order (the inner `for` loop of the
source). -/
def shrink (L : Int) (sizes : List Int) : Int := sizes.foldl shrinkStep L

/-- `pooling_sizes[pooling_size_index] += 1` — increment the list entry at the
given index, leaving the list unchanged if the index is out of range. -/
def bump : List Int → Nat → List Int
  | [], _ => []
  | f :: rest, 0 => (f + 1) :: rest
  | f :: rest, n + 1 => f :: bump rest n

/-- The search loop of `determine_block_pooling_sizes_and_dense_size`,
flattened: at each step, simulate the shrink with the current factors; if the
final size is at most `max_dense_final_layer_features = 10`, return, otherwise
increment the factor at the current index and move to the next index
(wrapping from 7 back to 0, which is the `while True` restarting the `for`).
`fuel` bounds the number of steps; the source loop is unbounded, and
`planAux_total` below shows the fuel chosen in
`determine_block_pooling_sizes_and_dense_size` is never exhausted. -/
def planAux (L : Int) : Nat → List Int → Nat → Option (List Int × Int)
  | 0, _, _ => Option.none
  | fuel + 1, sizes, idx =>
    let s := shrink L sizes
    if s ≤ 10 then some (sizes, s)
    else planAux L fuel (bump sizes idx) ((idx + 1) % 8)

/-- `HadryssNew.determine_block_pooling_sizes_and_dense_size`: start from
eight pooling factors equal to 1 at index 0, and run the search loop.  The
fuel `8 * (L.toNat + 1)` is proved sufficient for every input length. -/
def determine_block_pooling_sizes_and_dense_size (L : Int) :
    Option (List Int × Int) :=
  planAux L (8 * (L.toNat + 1)) (List.replicate 8 1) 0

/-- One round of the specification's search, written exactly as the spec
describes it: iterate the 8 factor positions in order; at each position run
the shrink simulation with the current full factor sequence; if the final
size is ≤ 10 terminate immediately with the current sequence and that size,
otherwise increment the factor at this position permanently and proceed to
the next position of the same round.  `r` counts the positions still to
visit, so the current position is `8 - r`. -/
def specRound (L : Int) : List Int → Nat → ((List Int × Int) ⊕ List Int)
  | sizes, 0 => Sum.inr sizes
  | sizes, r + 1 =>
    let s := shrink L sizes
    if s ≤ 10 then Sum.inl (sizes, s)
    else specRound L (bump sizes (8 - (r + 1))) r

/-- The specification's algorithm: repeat rounds (here up to a given number of
rounds) over positions 0..7, starting from the given factor sequence. -/
def planSpec (L : Int) : Nat → List Int → Option (List Int × Int)
  | 0, _ => Option.none
  | n + 1, sizes =>
    match specRound L sizes 8 with
    | Sum.inl res => some res
    | Sum.inr sizes2 => planSpec L n sizes2

/-- The factor sequences reachable by the search: the first `i` entries have
been incremented to `k + 1` this round, the remaining `8 - i` entries are
still `k`. -/
def state (k : Int) (i : Nat) : List Int :=
  List.replicate i (k + 1) ++ List.replicate (8 - i) k

/-- The search loop as a big-step relation: from factor sequence `sizes` at
position `idx`, the loop returns `out` together with the simulated dense
size `d`.  This is a direct transcription of the source loop's control flow,
used to state that the loop is deterministic. -/
inductive PlanLoop (L : Int) : List Int → Nat → List Int → Int → Prop
  | ret {sizes : List Int} {idx : Nat} (h : shrink L sizes ≤ 10) :
      PlanLoop L sizes idx sizes (shrink L sizes)
  | step {sizes : List Int} {idx : Nat} {out : List Int} {d : Int}
      (h : ¬ shrink L sizes ≤ 10)
      (hrec : PlanLoop L (bump sizes idx) ((idx + 1) % 8) out d) :
      PlanLoop L sizes idx out d

/-- The loop, started as the source starts it: all eight factors 1, index 0. -/
def PlanReturns (L : Int) (out : List Int) (d : Int) : Prop :=
  PlanLoop L (List.replicate 8 1) 0 out d

/-- The dropout rate `0.1` of the source, as the exact rational `1/10`
(`tenth_eq_one_div_ten` below); written by its reduced numerator and
denominator so that concrete configurations remain kernel-computable. -/
def tenth : ℚ := Rat.mk' 1 10 (by decide) (by decide)

/-- Configuration of one `LightCurveNetworkBlock` as passed by
`HadryssNew.__init__`.  The collaborator's constructor signature (defaults
`batch_normalization=True`, `dropout_rate=0`, `spatial=True`, `length=None`)
is taken from the specification's collaborator contract; call sites below
spell every field out explicitly. -/
structure LightCurveNetworkBlock where
  input_channels : Int
  output_channels : Int
  kernel_size : Int
  pooling_size : Int
  batch_normalization : Bool
  dropout_rate : ℚ
  spatial : Bool
  length : Option Int
deriving DecidableEq

/-- The kernel-size-1 channel projection (`torch.nn.Conv1d`) used by the end
modules, recorded by its constructor arguments. -/
structure Conv1d where
  in_channels : Int
  out_channels : Int
  kernel_size : Int
deriving DecidableEq

/-- Which squashing function an end module's `forward` applies after the
projection: `Sigmoid`, `Softmax(dim=1)`, or none. -/
inductive Activation where
  | sigmoid
  | softmax
  | noActivation
deriving DecidableEq

/-- Which reshape an end module's `forward` applies at the end:
`torch.reshape(x, (-1,))` (flat per-example scalar) or
`torch.reshape(x, (-1, n))` (one row of `n` class values per example). -/
inductive ReshapeKind where
  | flat
  | perClass (n : Int)
deriving DecidableEq

/-- An end module, described by its projection layer, activation and final
reshape — the entire observable content of the three end-module classes. -/
structure EndModuleDesc where
  prediction_layer : Conv1d
  activation : Activation
  reshape : ReshapeKind
deriving DecidableEq

/-- `HadryssMultiClassEndModuleNew.new()`: the binary head — projects 20
channels to 1 with a kernel-size-1 convolution, applies `Sigmoid`, reshapes
to a flat per-example scalar. -/
def HadryssMultiClassEndModuleNew.new : EndModuleDesc :=
  { prediction_layer := { in_channels := 20, out_channels := 1, kernel_size := 1 }
    activation := Activation.sigmoid
    reshape := ReshapeKind.flat }

/-- `HadryssMultiClassProbabilityEndModuleNew.new(n)`: projects 20 channels to
`n`, applies `Softmax(dim=1)`, reshapes to `(-1, n)`. -/
def HadryssMultiClassProbabilityEndModuleNew.new (n : Int) : EndModuleDesc :=
  { prediction_layer := { in_channels := 20, out_channels := n, kernel_size := 1 }
    activation := Activation.softmax
    reshape := ReshapeKind.perClass n }

/-- `HadryssMultiClassScoreEndModuleNew.new(n)`: projects 20 channels to `n`,
no activation, reshapes to `(-1, n)`. -/
def HadryssMultiClassScoreEndModuleNew.new (n : Int) : EndModuleDesc :=
  { prediction_layer := { in_channels := 20, out_channels := n, kernel_size := 1 }
    activation := Activation.noActivation
    reshape := ReshapeKind.perClass n }

/-- The configuration state built by `HadryssNew.__init__`: the ten block
descriptors, the stored input length and the end module. -/
structure HadryssNew where
  input_length : Int
  block0 : LightCurveNetworkBlock
  block1 : LightCurveNetworkBlock
  block2 : LightCurveNetworkBlock
  block3 : LightCurveNetworkBlock
  block4 : LightCurveNetworkBlock
  block5 : LightCurveNetworkBlock
  block6 : LightCurveNetworkBlock
  block7 : LightCurveNetworkBlock
  block8 : LightCurveNetworkBlock
  block9 : LightCurveNetworkBlock
  end_module : EndModuleDesc
deriving DecidableEq

/-- `HadryssNew.__init__(input_length=…, end_module=…)`: run the pooling-size
search and wire the ten blocks exactly as the source does.  The constructor
performs no validation of the computed values; the `Option` only reflects the
fuel of the embedded search, which `planAux_total` proves is never exhausted. -/
def HadryssNew.init (input_length : Int) (end_module : EndModuleDesc) :
    Option HadryssNew :=
  (determine_block_pooling_sizes_and_dense_size input_length).map fun pd =>
    { input_length := input_length
      block0 := { input_channels := 1, output_channels := 8, kernel_size := 3
                  pooling_size := pd.1.getD 0 0, batch_normalization := true
                  dropout_rate := 0, spatial := true, length := Option.none }
      block1 := { input_channels := 8, output_channels := 8, kernel_size := 3
                  pooling_size := pd.1.getD 1 0, batch_normalization := true
                  dropout_rate := 0, spatial := true, length := Option.none }
      block2 := { input_channels := 8, output_channels := 16, kernel_size := 3
                  pooling_size := pd.1.getD 2 0, batch_normalization := false
                  dropout_rate := tenth, spatial := true, length := Option.none }
      block3 := { input_channels := 16, output_channels := 32, kernel_size := 3
                  pooling_size := pd.1.getD 3 0, batch_normalization := false
                  dropout_rate := tenth, spatial := true, length := Option.none }
      block4 := { input_channels := 32, output_channels := 64, kernel_size := 3
                  pooling_size := pd.1.getD 4 0, batch_normalization := false
                  dropout_rate := tenth, spatial := true, length := Option.none }
      block5 := { input_channels := 64, output_channels := 64, kernel_size := 3
                  pooling_size := pd.1.getD 5 0, batch_normalization := false
                  dropout_rate := tenth, spatial := true, length := Option.none }
      block6 := { input_channels := 64, output_channels := 48, kernel_size := 3
                  pooling_size := pd.1.getD 6 0, batch_normalization := true
                  dropout_rate := tenth, spatial := true, length := Option.none }
      block7 := { input_channels := 48, output_channels := 20, kernel_size := 3
                  pooling_size := pd.1.getD 7 0, batch_normalization := true
                  dropout_rate := tenth, spatial := false, length := some (pd.2 + 2) }
      block8 := { input_channels := 20, output_channels := 20, kernel_size := pd.2
                  pooling_size := 1, batch_normalization := true
                  dropout_rate := tenth, spatial := true, length := Option.none }
      block9 := { input_channels := 20, output_channels := 20, kernel_size := 1
                  pooling_size := 1, batch_normalization := true
                  dropout_rate := 0, spatial := true, length := Option.none }
      end_module := end_module }

/-- `HadryssNew.new(input_length, end_module)`: the construction entry point.
An omitted end module (`Option.none`) defaults to
`HadryssMultiClassEndModuleNew.new()`. -/
def HadryssNew.new (input_length : Int) (end_module : Option EndModuleDesc) :
    Option HadryssNew :=
  HadryssNew.init input_length (end_module.getD HadryssMultiClassEndModuleNew.new)

/-- The pipeline configuration built for input length 10 with the default end
module (the planner returns all-ones factors and dense size `-6` there); used
to instantiate the construction theorems at a concrete input. -/
def sampleModel : HadryssNew :=
  { input_length := 10
    block0 := { input_channels := 1, output_channels := 8, kernel_size := 3
                pooling_size := 1, batch_normalization := true
                dropout_rate := 0, spatial := true, length := Option.none }
    block1 := { input_channels := 8, output_channels := 8, kernel_size := 3
                pooling_size := 1, batch_normalization := true
                dropout_rate := 0, spatial := true, length := Option.none }
    block2 := { input_channels := 8, output_channels := 16, kernel_size := 3
                pooling_size := 1, batch_normalization := false
                dropout_rate := tenth, spatial := true, length := Option.none }
    block3 := { input_channels := 16, output_channels := 32, kernel_size := 3
                pooling_size := 1, batch_normalization := false
                dropout_rate := tenth, spatial := true, length := Option.none }
    block4 := { input_channels := 32, output_channels := 64, kernel_size := 3
                pooling_size := 1, batch_normalization := false
                dropout_rate := tenth, spatial := true, length := Option.none }
    block5 := { input_channels := 64, output_channels := 64, kernel_size := 3
                pooling_size := 1, batch_normalization := false
                dropout_rate := tenth, spatial := true, length := Option.none }
    block6 := { input_channels := 64, output_channels := 48, kernel_size := 3
                pooling_size := 1, batch_normalization := true
                dropout_rate := tenth, spatial := true, length := Option.none }
    block7 := { input_channels := 48, output_channels := 20, kernel_size := 3
                pooling_size := 1, batch_normalization := true
                dropout_rate := tenth, spatial := false, length := some (-4) }
    block8 := { input_channels := 20, output_channels := 20, kernel_size := -6
                pooling_size := 1, batch_normalization := true
                dropout_rate := tenth, spatial := true, length := Option.none }
    block9 := { input_channels := 20, output_channels := 20, kernel_size := 1
                pooling_size := 1, batch_normalization := true
                dropout_rate := 0, spatial := true, length := Option.none }
    end_module := HadryssMultiClassEndModuleNew.new }

/-- `tenth` is the rational number `1/10`, i.e. the source's dropout rate
`0.1` exactly. -/
lemma tenth_eq_one_div_ten : tenth = 1 / 10 := by
  rw [tenth]
  norm_num [Rat.mk'_eq_divInt, Rat.divInt_eq_div]

/-- With fuel available, a sequence whose simulated final size is at most 10
is returned immediately, unchanged. -/
lemma planAux_ret (L : Int) (fuel : Nat) (sizes : List Int) (idx : Nat)
    (hf : 1 ≤ fuel) (hs : shrink L sizes ≤ 10) :
    planAux L fuel sizes idx = some (sizes, shrink L sizes) := by
  cases fuel with
  | zero => omega
  | succ n => simp [planAux, hs]

/-- With the check failed, the loop increments the current position and moves
on, spending one unit of fuel. -/
lemma planAux_step (L : Int) (fuel : Nat) (sizes : List Int) (idx : Nat)
    (hs : ¬ shrink L sizes ≤ 10) :
    planAux L (fuel + 1) sizes idx =
      planAux L fuel (bump sizes idx) ((idx + 1) % 8) := by
  simp [planAux, hs]

/-- A shrink step keeps a size that is already at most 10 at most 10
(positive divisor): either the decremented size is still nonnegative, in
which case dividing cannot increase it, or it is negative, in which case the
quotient is negative. -/
lemma shrinkStep_le_ten {s f : Int} (hf : 1 ≤ f) (hs : s ≤ 10) :
    shrinkStep s f ≤ 10 := by
  unfold shrinkStep
  rw [Int.fdiv_eq_ediv _ (by omega : (0:Int) ≤ f)]
  rcases le_or_lt 0 (s - 2) with h0 | h0
  · exact le_trans (Int.ediv_le_self f h0) (by omega)
  · exact le_of_lt (lt_of_lt_of_le (Int.ediv_neg' h0 (by omega)) (by omega))

/-- Folding shrink steps over positive factors preserves the bound 10. -/
lemma foldl_shrink_le_ten :
    ∀ (rest : List Int), (∀ g ∈ rest, 1 ≤ g) → ∀ s : Int, s ≤ 10 →
      List.foldl shrinkStep s rest ≤ 10 := by
  intro rest
  induction rest with
  | nil => intro _ s hs; simpa using hs
  | cons f r ih =>
    intro hmem s hs
    have hf : 1 ≤ f := hmem f (List.mem_cons_self f r)
    have h1 : shrinkStep s f ≤ 10 := shrinkStep_le_ten hf hs
    simpa using ih (fun g hg => hmem g (List.mem_cons_of_mem f hg)) _ h1

/-- If the first factor is at least `L - 1`, the very first shrink step
already lands at or below 0. -/
lemma shrinkStep_nonpos_of_big {L f : Int} (hf : 1 ≤ f) (hbig : L - 1 ≤ f) :
    shrinkStep L f ≤ 0 := by
  unfold shrinkStep
  rw [Int.fdiv_eq_ediv _ (by omega : (0:Int) ≤ f)]
  rcases le_or_lt 0 (L - 2) with h0 | h0
  · exact le_of_eq (Int.ediv_eq_zero_of_lt h0 (by omega))
  · exact le_of_lt (Int.ediv_neg' h0 (by omega))

/-- If the head factor is at least `L - 1` and every factor is positive, the
whole simulation ends at or below 10 (the success condition). -/
lemma shrink_le_of_head_big {L f : Int} {rest : List Int} (hf : 1 ≤ f)
    (hrest : ∀ g ∈ rest, 1 ≤ g) (hbig : L - 1 ≤ f) :
    shrink L (f :: rest) ≤ 10 := by
  have h0 : shrinkStep L f ≤ 0 := shrinkStep_nonpos_of_big hf hbig
  have : shrink L (f :: rest) = List.foldl shrinkStep (shrinkStep L f) rest := rfl
  rw [this]
  exact foldl_shrink_le_ten rest hrest _ (by omega)

/-- Every entry of `state k i` is `k` or `k + 1`. -/
lemma state_mem {k : Int} {i : Nat} :
    ∀ g ∈ state k i, k ≤ g ∧ g ≤ k + 1 := by
  intro g hg
  rcases List.mem_append.mp hg with h | h
  · rcases List.eq_of_mem_replicate h with rfl; omega
  · rcases List.eq_of_mem_replicate h with rfl; omega

/-- `state k i` has exactly 8 entries while `i ≤ 8`. -/
lemma state_length {k : Int} {i : Nat} (hi : i ≤ 8) :
    (state k i).length = 8 := by
  simp [state]
  omega

/-- The entry of `state k i` at position `j`: `k + 1` before the current
position, `k` from it on. -/
lemma state_getD (k : Int) (i j : Nat) (hi : i < 8) (hj : j < 8) :
    (state k i).getD j 0 = if j < i then k + 1 else k := by
  interval_cases i <;> interval_cases j <;> rfl

/-- Incrementing the current position of `state k i` moves the round one
position forward. -/
lemma bump_state (k : Int) (i : Nat) (hi : i < 8) :
    bump (state k i) i = state k (i + 1) := by
  interval_cases i <;> rfl

/-- Completing a round: all eight factors at `k + 1` is the start of the next
round. -/
lemma state_wrap (k : Int) : state k 8 = state (k + 1) 0 := rfl

/-- The initial factor sequence is `state 1 0`. -/
lemma state_one_zero : state 1 0 = List.replicate 8 (1 : Int) := rfl

/-- If `k` is at least `L - 1`, the check at any reachable sequence
succeeds. -/
lemma shrink_state_le (L k : Int) (i : Nat) (hk : 1 ≤ k) (hbig : L - 1 ≤ k) :
    shrink L (state k i) ≤ 10 := by
  cases i with
  | zero =>
    have h : state k 0 = k :: List.replicate 7 k := rfl
    rw [h]
    refine shrink_le_of_head_big hk ?_ hbig
    intro g hg
    rcases List.eq_of_mem_replicate hg with rfl; omega
  | succ j =>
    rcases Nat.lt_or_ge j 8 with hj | hj
    · have h : state k (j + 1) =
          (k + 1) :: (List.replicate j (k + 1) ++ List.replicate (8 - (j + 1)) k) := by
        have h8 : state k (j + 1) =
            List.replicate (j + 1) (k + 1) ++ List.replicate (8 - (j + 1)) k := rfl
        rw [h8, List.replicate_succ, List.cons_append]
      rw [h]
      refine shrink_le_of_head_big (by omega) ?_ (by omega)
      intro g hg
      rcases List.mem_append.mp hg with hh | hh <;>
        · rcases List.eq_of_mem_replicate hh with rfl; omega
    · have h : state k (j + 1) = List.replicate (j + 1) (k + 1) := by
        have h0 : 8 - (j + 1) = 0 := by omega
        simp [state, h0]
      rw [h, List.replicate_succ]
      refine shrink_le_of_head_big (by omega) ?_ (by omega)
      intro g hg
      rcases List.eq_of_mem_replicate hg with rfl; omega

/-- Shape invariant of the search: whatever the loop returns from a reachable
configuration is again a reachable sequence, and the returned dense size is
its own simulation result, bounded by 10. -/
lemma planAux_shape (L : Int) :
    ∀ (fuel : Nat) (k : Int) (i : Nat) (out : List Int) (d : Int),
      1 ≤ k → i < 8 → planAux L fuel (state k i) i = some (out, d) →
      (∃ kk ii, 1 ≤ kk ∧ ii < 8 ∧ out = state kk ii) ∧
        d = shrink L out ∧ d ≤ 10 := by
  intro fuel
  induction fuel with
  | zero => intro k i out d _ _ h; simp [planAux] at h
  | succ n ih =>
    intro k i out d hk hi h
    by_cases hs : shrink L (state k i) ≤ 10
    · rw [planAux_ret L (n + 1) _ i (by omega) hs] at h
      obtain ⟨h1, h2⟩ := Prod.mk.injEq .. ▸ Option.some.inj h
      subst h1; subst h2
      exact ⟨⟨k, i, hk, hi, rfl⟩, rfl, hs⟩
    · rw [planAux_step L n _ i hs, bump_state k i hi] at h
      rcases Nat.lt_or_ge (i + 1) 8 with hi8 | hi8
      · rw [Nat.mod_eq_of_lt hi8] at h
        exact ih k (i + 1) out d hk hi8 h
      · have hi7 : i = 7 := by omega
        subst hi7
        rw [state_wrap] at h
        exact ih (k + 1) 0 out d (by omega) (by omega) h

/-- Totality of the search: from a reachable configuration, fuel at least
`8 * ((L.toNat + 1) - k.toNat) + (8 - i)` always suffices to reach a
successful check, because the factor at position 0 grows by one each round
and the check at position 0 succeeds as soon as that factor reaches
`L - 1`. -/
lemma planAux_total (L : Int) :
    ∀ (fuel : Nat) (k : Int) (i : Nat),
      1 ≤ k → i < 8 →
      8 * ((L.toNat + 1) - k.toNat) + (8 - i) ≤ fuel →
      (planAux L fuel (state k i) i).isSome := by
  intro fuel
  induction fuel with
  | zero => intro k i _ hi hm; omega
  | succ n ih =>
    intro k i hk hi hm
    by_cases hs : shrink L (state k i) ≤ 10
    · rw [planAux_ret L (n + 1) _ i (by omega) hs]; rfl
    · have hksmall : k ≤ L - 2 := by
        by_contra hbig
        exact hs (shrink_state_le L k i hk (by omega))
      have hknat : k.toNat ≤ L.toNat - 2 := by omega
      rw [planAux_step L n _ i hs, bump_state k i hi]
      rcases Nat.lt_or_ge (i + 1) 8 with hi8 | hi8
      · rw [Nat.mod_eq_of_lt hi8]
        exact ih k (i + 1) hk hi8 (by omega)
      · have hi7 : i = 7 := by omega
        subst hi7
        rw [state_wrap]
        exact ih (k + 1) 0 (by omega) (by omega) (by omega)

/-- The planner always returns: the fuel chosen in
`determine_block_pooling_sizes_and_dense_size` meets the bound of
`planAux_total` at the initial configuration. -/
lemma plan_total (L : Int) :
    ∃ out d, determine_block_pooling_sizes_and_dense_size L = some (out, d) := by
  have h : (planAux L (8 * (L.toNat + 1)) (state 1 0) 0).isSome := by
    refine planAux_total L _ 1 0 (by omega) (by omega) ?_
    omega
  rw [state_one_zero] at h
  unfold determine_block_pooling_sizes_and_dense_size
  rcases Option.isSome_iff_exists.mp h with ⟨⟨out, d⟩, hout⟩
  exact ⟨out, d, hout⟩

/-- Everything the shape invariant yields about an actual planner result:
the returned sequence is a reachable `state kk ii`, and the dense size is its
own simulation, at most 10. -/
lemma plan_shape {L : Int} {out : List Int} {d : Int}
    (h : determine_block_pooling_sizes_and_dense_size L = some (out, d)) :
    (∃ kk ii, 1 ≤ kk ∧ ii < 8 ∧ out = state kk ii) ∧
      d = shrink L out ∧ d ≤ 10 := by
  unfold determine_block_pooling_sizes_and_dense_size at h
  rw [← state_one_zero] at h
  exact planAux_shape L _ 1 0 out d (by omega) (by omega) h

/-- One spec round, position by position, agrees with `8 - r` flattened steps
of the source loop; parameterised by the agreement of whole remaining
rounds. -/
lemma planAux_eq_specRound (L : Int) (n : Nat)
    (ihm : ∀ sizes, planAux L (8 * n) sizes 0 = planSpec L n sizes) :
    ∀ r, r ≤ 8 → ∀ sizes,
      planAux L (8 * n + r) sizes ((8 - r) % 8) =
        (match specRound L sizes r with
         | Sum.inl res => some res
         | Sum.inr sizes2 => planSpec L n sizes2) := by
  intro r
  induction r with
  | zero => intro _ sizes; simpa [specRound] using ihm sizes
  | succ m ihr =>
    intro hm sizes
    have hstep : 8 * n + (m + 1) = (8 * n + m) + 1 := by omega
    rw [hstep]
    by_cases hs : shrink L sizes ≤ 10
    · rw [planAux_ret L ((8 * n + m) + 1) sizes _ (by omega) hs]
      simp [specRound, hs]
    · rw [planAux_step L (8 * n + m) sizes _ hs]
      have h1 : (8 - (m + 1)) % 8 = 8 - (m + 1) := Nat.mod_eq_of_lt (by omega)
      have h2 : (8 - (m + 1) + 1) % 8 = (8 - m) % 8 := by omega
      rw [h1, h2]
      have h3 : (match specRound L sizes (m + 1) with
          | Sum.inl res => some res
          | Sum.inr sizes2 => planSpec L n sizes2) =
          (match specRound L (bump sizes (8 - (m + 1))) m with
          | Sum.inl res => some res
          | Sum.inr sizes2 => planSpec L n sizes2) := by
        simp [specRound, hs]
      rw [h3]
      exact ihr (by omega) (bump sizes (8 - (m + 1)))

/-- The flattened source loop run for `8 * n` steps from position 0 computes
exactly `n` rounds of the specification's algorithm. -/
lemma planAux_eq_planSpec (L : Int) :
    ∀ (n : Nat) (sizes : List Int),
      planAux L (8 * n) sizes 0 = planSpec L n sizes := by
  intro n
  induction n with
  | zero => intro sizes; rfl
  | succ m ihm =>
    intro sizes
    have h8 : 8 * (m + 1) = 8 * m + 8 := by omega
    have h0 : (0 : Nat) = (8 - 8) % 8 := rfl
    rw [h8, h0, planAux_eq_specRound L m ihm 8 (by omega) sizes]
    simp [planSpec]

/-- Any value the fuelled loop actually returns is a big-step return of the
loop relation. -/
lemma planLoop_of_planAux (L : Int) :
    ∀ (fuel : Nat) (sizes : List Int) (idx : Nat) (out : List Int) (d : Int),
      planAux L fuel sizes idx = some (out, d) → PlanLoop L sizes idx out d := by
  intro fuel
  induction fuel with
  | zero => intro sizes idx out d h; simp [planAux] at h
  | succ n ih =>
    intro sizes idx out d h
    by_cases hs : shrink L sizes ≤ 10
    · rw [planAux_ret L (n + 1) sizes idx (by omega) hs] at h
      obtain ⟨h1, h2⟩ := Prod.mk.injEq .. ▸ Option.some.inj h
      subst h1; subst h2
      exact PlanLoop.ret hs
    · rw [planAux_step L n sizes idx hs] at h
      exact PlanLoop.step hs (ih _ _ out d h)

/-- The planner's result is a big-step return of the loop relation. -/
lemma planReturns_of_plan {L : Int} {out : List Int} {d : Int}
    (h : determine_block_pooling_sizes_and_dense_size L = some (out, d)) :
    PlanReturns L out d :=
  planLoop_of_planAux L _ _ _ _ _ h

/-- The loop relation is a partial function: from one configuration it can
only return one answer, because the branch taken at every configuration is
decided by the value of the shrink simulation there. -/
lemma planLoop_det {L : Int} {sizes : List Int} {idx : Nat}
    {out1 : List Int} {d1 : Int} (h1 : PlanLoop L sizes idx out1 d1) :
    ∀ {out2 : List Int} {d2 : Int}, PlanLoop L sizes idx out2 d2 →
      out1 = out2 ∧ d1 = d2 := by
  induction h1 with
  | ret hs =>
    intro out2 d2 h2
    cases h2 with
    | ret _ => exact ⟨rfl, rfl⟩
    | step hns _ => exact absurd hs hns
  | step hns hrec ih =>
    intro out2 d2 h2
    cases h2 with
    | ret hs => exact absurd hs hns
    | step _ hrec2 => exact ih hrec2

/-- With all eight factors 1, the simulation is eight plain subtractions of
2: the final size is `L - 16`. -/
lemma shrink_replicate_one (L : Int) :
    shrink L (List.replicate 8 1) = L - 16 := by
  have hl : List.replicate 8 (1 : Int) = [1, 1, 1, 1, 1, 1, 1, 1] := rfl
  rw [hl]
  simp [shrink, shrinkStep]
  omega

/-- C1: the Length Planner implements exactly the specified algorithm —
start from eight factors equal to 1 and repeat rounds over positions 0..7,
at each position simulating `size = floor((size - 2) / factor)` from the
input length over the current factors in order, returning the current
factors and final size as soon as the final size is at most 10, and
otherwise permanently incrementing the factor at the current position and
moving to the next position of the same round.  The source loop
(`determine_block_pooling_sizes_and_dense_size`, embedded with its proven
fuel) computes exactly the round-by-round algorithm written from the
specification's prose (`planSpec`). -/
theorem C1_planner_implements_spec_algorithm (L : Int) :
    determine_block_pooling_sizes_and_dense_size L =
      planSpec L (L.toNat + 1) (List.replicate 8 1) := by
  unfold determine_block_pooling_sizes_and_dense_size
  exact planAux_eq_planSpec L (L.toNat + 1) (List.replicate 8 1)

/-- C2 counterexample: at input length 100 the planner terminates with
factors `[2, 2, 2, 1, 1, 1, 1, 1]` but dense size 0, violating the claimed
lower bound `1 ≤ denseSize`. -/
theorem C2_counterexample :
    determine_block_pooling_sizes_and_dense_size 100 =
      some ([2, 2, 2, 1, 1, 1, 1, 1], 0) ∧ ¬ (1 ≤ (0 : Int)) := by
  constructor
  · decide
  · decide

/-- C2 (amended): for every input length between 100 and 100000 the planner
terminates and returns exactly 8 positive integer factors and a dense size
at most 10 — the upper bound holds, but the lower bound `1 ≤ denseSize`
does not (see the counterexample at 100). -/
theorem C2_amended_terminates_bounded (L : Int) (_h1 : 100 ≤ L)
    (_h2 : L ≤ 100000) :
    ∃ out d, determine_block_pooling_sizes_and_dense_size L = some (out, d) ∧
      out.length = 8 ∧ (∀ f ∈ out, 1 ≤ f) ∧ d ≤ 10 := by
  obtain ⟨out, d, hout⟩ := plan_total L
  obtain ⟨⟨kk, ii, hkk, hii, hstate⟩, hd, hdle⟩ := plan_shape hout
  subst hstate
  refine ⟨_, d, hout, state_length (by omega), ?_, hdle⟩
  intro f hf
  have := state_mem f hf
  omega

/-- Witness for C2 at input length 100. -/
theorem C2_witness :
    (100 : Int) ≤ 100 ∧ (100 : Int) ≤ 100000 ∧
      ∃ out d, determine_block_pooling_sizes_and_dense_size 100 = some (out, d) ∧
        out.length = 8 ∧ (∀ f ∈ out, 1 ≤ f) ∧ d ≤ 10 :=
  ⟨by decide, by decide, C2_amended_terminates_bounded 100 (by decide) (by decide)⟩

/-- C3 (evidence of the divergence): at input length 100 the computed dense
size is 0, and construction nevertheless succeeds, wiring 0 — a non-positive
value — as stage 8's kernel size; no rejection of the configuration happens
anywhere in the constructor. -/
theorem C3_construction_accepts_nonpositive_kernel :
    ((HadryssNew.init 100 HadryssMultiClassEndModuleNew.new).map
        fun m => m.block8.kernel_size) = some 0 := by
  decide

/-- C4 counterexample: there is no positive input length at which the planner
returns factors with `factor[0] < factor[1]`; the claimed inversion never
happens, because every reachable factor sequence is non-increasing. -/
theorem C4_counterexample :
    ¬ ∃ (L : Int) (out : List Int) (d : Int),
      0 < L ∧ determine_block_pooling_sizes_and_dense_size L = some (out, d) ∧
        out.getD 0 0 < out.getD 1 0 := by
  rintro ⟨L, out, d, hL, h, hlt⟩
  obtain ⟨⟨kk, ii, hkk, hii, hstate⟩, _, _⟩ := plan_shape h
  subst hstate
  rw [state_getD kk ii 0 hii (by omega), state_getD kk ii 1 hii (by omega)] at hlt
  split_ifs at hlt <;> omega

/-- C4 (amended): `factor[0] ≥ factor[1]` is guaranteed — for every input
length on which the planner terminates, the first returned factor is at
least the second (position 0 is incremented at least as often as any later
position, earlier positions being checked first each round). -/
theorem C4_amended_first_factor_ge_second (L : Int) (out : List Int) (d : Int)
    (h : determine_block_pooling_sizes_and_dense_size L = some (out, d)) :
    out.getD 1 0 ≤ out.getD 0 0 := by
  obtain ⟨⟨kk, ii, hkk, hii, hstate⟩, _, _⟩ := plan_shape h
  subst hstate
  rw [state_getD kk ii 0 hii (by omega), state_getD kk ii 1 hii (by omega)]
  split_ifs <;> omega

/-- Witness for C4 (amended) at input length 100. -/
theorem C4_witness :
    ([2, 2, 2, 1, 1, 1, 1, 1] : List Int).getD 1 0 ≤
      ([2, 2, 2, 1, 1, 1, 1, 1] : List Int).getD 0 0 :=
  C4_amended_first_factor_ge_second 100 _ 0 (by decide)

/-- C5: round-trip — whenever the planner returns factors and a dense size,
re-running the shrink simulation on the input length with the returned
factors reproduces the returned dense size exactly. -/
theorem C5_round_trip (L : Int) (out : List Int) (d : Int)
    (h : determine_block_pooling_sizes_and_dense_size L = some (out, d)) :
    shrink L out = d :=
  ((plan_shape h).2.1).symm

/-- Witness for C5 at input length 100. -/
theorem C5_witness : shrink 100 [2, 2, 2, 1, 1, 1, 1, 1] = 0 :=
  C5_round_trip 100 _ 0 (by decide)

/-- C6: the Length Planner is deterministic — any two big-step returns of the
search loop from the same input length (same initial all-ones factors, same
starting position) yield the same factor sequence and the same dense size;
the result is a function of the input length alone. -/
theorem C6_deterministic (L : Int) (out1 out2 : List Int) (d1 d2 : Int)
    (h1 : PlanReturns L out1 d1) (h2 : PlanReturns L out2 d2) :
    out1 = out2 ∧ d1 = d2 :=
  planLoop_det h1 h2

/-- Witness for C6 at input length 20, where the loop returns immediately
with all-ones factors and dense size 4. -/
theorem C6_witness :
    List.replicate 8 (1 : Int) = List.replicate 8 1 ∧ (4 : Int) = 4 := by
  have h4 : shrink 20 (List.replicate 8 1) = (4 : Int) := by decide
  have hret : PlanReturns 20 (List.replicate 8 1) 4 :=
    h4 ▸ PlanLoop.ret (by decide)
  exact C6_deterministic 20 _ _ _ _ hret hret

/-- C7: construction builds the ten stages with exactly the fixed table of
parameters — in particular stage 7 with channels 48→20, kernel 3, pooling
factor `plan[7]`, dropout 0.1, non-spatial/flattening mode and expected
length `denseSize + 2`, and stage 8 with channels 20→20, kernel size equal
to `denseSize` and pooling factor 1. -/
theorem C7_stage_table (L : Int) (em : EndModuleDesc) (m : HadryssNew)
    (h : HadryssNew.init L em = some m) :
    ∃ ps d, determine_block_pooling_sizes_and_dense_size L = some (ps, d) ∧
      m.block0 = ⟨1, 8, 3, ps.getD 0 0, true, 0, true, Option.none⟩ ∧
      m.block1 = ⟨8, 8, 3, ps.getD 1 0, true, 0, true, Option.none⟩ ∧
      m.block2 = ⟨8, 16, 3, ps.getD 2 0, false, tenth, true, Option.none⟩ ∧
      m.block3 = ⟨16, 32, 3, ps.getD 3 0, false, tenth, true, Option.none⟩ ∧
      m.block4 = ⟨32, 64, 3, ps.getD 4 0, false, tenth, true, Option.none⟩ ∧
      m.block5 = ⟨64, 64, 3, ps.getD 5 0, false, tenth, true, Option.none⟩ ∧
      m.block6 = ⟨64, 48, 3, ps.getD 6 0, true, tenth, true, Option.none⟩ ∧
      m.block7 = ⟨48, 20, 3, ps.getD 7 0, true, tenth, false, some (d + 2)⟩ ∧
      m.block8 = ⟨20, 20, d, 1, true, tenth, true, Option.none⟩ ∧
      m.block9 = ⟨20, 20, 1, 1, true, 0, true, Option.none⟩ := by
  unfold HadryssNew.init at h
  cases hdet : determine_block_pooling_sizes_and_dense_size L with
  | none => rw [hdet] at h; simp at h
  | some pd =>
    obtain ⟨ps, d⟩ := pd
    rw [hdet] at h
    simp only [Option.map_some'] at h
    obtain rfl := (Option.some.inj h).symm
    exact ⟨ps, d, rfl, rfl, rfl, rfl, rfl, rfl, rfl, rfl, rfl, rfl, rfl⟩

/-- Witness for C7 at input length 10 with the default end module. -/
theorem C7_witness :
    ∃ ps d, determine_block_pooling_sizes_and_dense_size 10 = some (ps, d) ∧
      sampleModel.block0 = ⟨1, 8, 3, ps.getD 0 0, true, 0, true, Option.none⟩ ∧
      sampleModel.block1 = ⟨8, 8, 3, ps.getD 1 0, true, 0, true, Option.none⟩ ∧
      sampleModel.block2 = ⟨8, 16, 3, ps.getD 2 0, false, tenth, true, Option.none⟩ ∧
      sampleModel.block3 = ⟨16, 32, 3, ps.getD 3 0, false, tenth, true, Option.none⟩ ∧
      sampleModel.block4 = ⟨32, 64, 3, ps.getD 4 0, false, tenth, true, Option.none⟩ ∧
      sampleModel.block5 = ⟨64, 64, 3, ps.getD 5 0, false, tenth, true, Option.none⟩ ∧
      sampleModel.block6 = ⟨64, 48, 3, ps.getD 6 0, true, tenth, true, Option.none⟩ ∧
      sampleModel.block7 = ⟨48, 20, 3, ps.getD 7 0, true, tenth, false, some (d + 2)⟩ ∧
      sampleModel.block8 = ⟨20, 20, d, 1, true, tenth, true, Option.none⟩ ∧
      sampleModel.block9 = ⟨20, 20, 1, 1, true, 0, true, Option.none⟩ :=
  C7_stage_table 10 HadryssMultiClassEndModuleNew.new sampleModel (by decide)

/-- C8: when the construction entry point is called with the end module
omitted, the built pipeline's end module is the binary head — a 20→1
kernel-size-1 projection, followed by the logistic squashing function and a
reshape to a flat per-example scalar. -/
theorem C8_default_end_module (L : Int) (m : HadryssNew)
    (h : HadryssNew.new L Option.none = some m) :
    m.end_module =
      ⟨⟨20, 1, 1⟩, Activation.sigmoid, ReshapeKind.flat⟩ := by
  unfold HadryssNew.new HadryssNew.init at h
  cases hdet : determine_block_pooling_sizes_and_dense_size L with
  | none => rw [hdet] at h; simp at h
  | some pd =>
    rw [hdet] at h
    simp only [Option.map_some'] at h
    obtain rfl := (Option.some.inj h).symm
    rfl

/-- Witness for C8 at input length 10. -/
theorem C8_witness :
    sampleModel.end_module =
      ⟨⟨20, 1, 1⟩, Activation.sigmoid, ReshapeKind.flat⟩ :=
  C8_default_end_module 10 sampleModel (by decide)

/-- C9: invariant of the planner's output — the returned eight factors are
non-increasing, and the first and last factors differ by at most one,
because each round increments positions 0..7 in order at most once each and
the search returns at the first satisfied check. -/
theorem C9_output_invariant (L : Int) (out : List Int) (d : Int)
    (h : determine_block_pooling_sizes_and_dense_size L = some (out, d)) :
    (∀ j, j < 7 → out.getD (j + 1) 0 ≤ out.getD j 0) ∧
      out.getD 0 0 - out.getD 7 0 ≤ 1 := by
  obtain ⟨⟨kk, ii, hkk, hii, hstate⟩, _, _⟩ := plan_shape h
  subst hstate
  constructor
  · intro j hj
    rw [state_getD kk ii (j + 1) hii (by omega),
      state_getD kk ii j hii (by omega)]
    split_ifs <;> omega
  · rw [state_getD kk ii 0 hii (by omega), state_getD kk ii 7 hii (by omega)]
    split_ifs <;> omega

/-- Witness for C9 at input length 100. -/
theorem C9_witness :
    (∀ j, j < 7 →
        ([2, 2, 2, 1, 1, 1, 1, 1] : List Int).getD (j + 1) 0 ≤
          ([2, 2, 2, 1, 1, 1, 1, 1] : List Int).getD j 0) ∧
      ([2, 2, 2, 1, 1, 1, 1, 1] : List Int).getD 0 0 -
          ([2, 2, 2, 1, 1, 1, 1, 1] : List Int).getD 7 0 ≤ 1 :=
  C9_output_invariant 100 _ 0 (by decide)

/-- C10: small inputs — for every positive input length at most 26, the very
first check of the search succeeds, so the planner returns all-ones factors
and dense size `inputLength - 16`; for input lengths at most 16 that dense
size is zero or negative, and construction still uses it, unchecked, as
stage 8's kernel size. -/
theorem C10_small_input (L : Int) (h1 : 1 ≤ L) (h2 : L ≤ 26) :
    determine_block_pooling_sizes_and_dense_size L =
        some (List.replicate 8 1, L - 16) ∧
      ∀ em : EndModuleDesc, ∃ m : HadryssNew,
        HadryssNew.init L em = some m ∧ m.block8.kernel_size = L - 16 ∧
          (L ≤ 16 → m.block8.kernel_size ≤ 0) := by
  have hsh : shrink L (List.replicate 8 1) = L - 16 := shrink_replicate_one L
  have hdet : determine_block_pooling_sizes_and_dense_size L =
      some (List.replicate 8 1, L - 16) := by
    unfold determine_block_pooling_sizes_and_dense_size
    rw [planAux_ret L _ _ 0 (by omega) (by omega), hsh]
  refine ⟨hdet, fun em => ?_⟩
  unfold HadryssNew.init
  rw [hdet]
  exact ⟨_, rfl, rfl, fun h16 => show L - 16 ≤ (0 : Int) by omega⟩

/-- Witness for C10 at input length 10, where the dense size is `-6`. -/
theorem C10_witness :
    determine_block_pooling_sizes_and_dense_size 10 =
        some (List.replicate 8 1, 10 - 16) ∧
      ∀ em : EndModuleDesc, ∃ m : HadryssNew,
        HadryssNew.init 10 em = some m ∧ m.block8.kernel_size = 10 - 16 ∧
          ((10 : Int) ≤ 16 → m.block8.kernel_size ≤ 0) :=
  C10_small_input 10 (by decide) (by decide)
